import Mathlib

/-!
Shallow embedding of the clipboard-manager storage engine and orchestration
service (Go sources under internal/storage, internal/storage/sqlite and
internal/service), together with proofs about the behaviour the
specification claims.

Modelling conventions:
* Byte payloads are `List Char` (one char per byte; ASCII payloads).
* Timestamps are a logical clock (`Nat`); each operation receives the
  current instant as an argument and clocks are monotone across calls.
* The SHA-256 digest `calculateHash` is abstracted as a function parameter
  `hashFn : Bytes → String`; no claim depends on the digest internals,
  only on the digest being a function of the payload bytes.
* The SQLite table is a list of rows (`ClipModel`), the blob directory is
  an association list from file name to bytes.  GORM `Save` persists every
  field of the in-memory model by primary key, GORM `Create` appends a row
  with the next surrogate id; the `BeforeSave` hook stamps `LastUsed` with
  the current instant, which coincides with the explicit assignments the
  Go code performs before saving.
* Database/file-system faults are not modelled, except for the
  state-dependent failure "external row whose blob file is missing",
  which the Go code observes through `os.ReadFile`.
-/

set_option autoImplicit false

deriving instance DecidableEq for Except

namespace ClipboardManager

/-- Byte payloads (one `Char` per byte). -/
abbrev Bytes := List Char

/-- pkg/types.Metadata. -/
structure Metadata where
  sourceApp : String
  tags : List String
  category : String
deriving DecidableEq

/-- pkg/types.Clip — the public record returned by the store. -/
structure Clip where
  id : String
  content : Bytes
  type : String
  metadata : Metadata
  createdAt : Nat
deriving DecidableEq

/-- internal/storage.ClipModel — one persisted row (gorm.Model fields
`ID`/`CreatedAt` inlined; `DeletedAt`/`UpdatedAt` are unused by the code). -/
structure ClipModel where
  id : Nat
  createdAt : Nat
  contentHash : String
  content : Bytes
  storagePath : String
  isExternal : Bool
  size : Nat
  type : String
  sourceApp : String
  category : String
  tags : List String
  lastUsed : Nat
  syncedToObsidian : Bool
deriving DecidableEq

/-- ClipModel.ToClip from internal/storage (models.go):
id rendered in decimal, content/type/metadata/createdAt copied. -/
def ClipModel.toClip (cm : ClipModel) : Clip :=
  { id := toString cm.id
    content := cm.content
    type := cm.type
    metadata := { sourceApp := cm.sourceApp, tags := cm.tags, category := cm.category }
    createdAt := cm.createdAt }

/-- internal/storage/constants.go: MaxInlineStorageSize = 10 * 1024 * 1024. -/
def maxInlineStorageSize : Nat := 10 * 1024 * 1024

/-- internal/storage/constants.go: MaxStorageSize = 100 * 1024 * 1024. -/
def maxStorageSize : Nat := 100 * 1024 * 1024

/-- Typed failures of the storage layer (ErrFileTooLarge,
gorm.ErrRecordNotFound, os.ReadFile failure, invalid SQL). -/
inductive StorageErr where
  | fileTooLarge
  | notFound
  | readFailed
  | badQuery
deriving DecidableEq

/-- The persistent state: the clip_models table (in insertion order, which
is primary-key order), the blob directory, and the next surrogate id. -/
structure StoreState where
  rows : List ClipModel
  blobs : List (String × Bytes)
  nextId : Nat
deriving DecidableEq

/-- A fresh store (empty table, empty blob directory, ids start at 1). -/
def StoreState.empty : StoreState := { rows := [], blobs := [], nextId := 1 }

/-- Read a blob file from the blob directory. -/
def lookupBlob (blobs : List (String × Bytes)) (name : String) : Option Bytes :=
  (blobs.find? (fun p => p.1 == name)).map (fun p => p.2)

/-- os.WriteFile: create or truncate-and-overwrite the named blob file. -/
def writeBlob (blobs : List (String × Bytes)) (name : String) (content : Bytes) :
    List (String × Bytes) :=
  (name, content) :: blobs.filter (fun p => ¬ p.1 = name)

/-- os.Remove on a blob file (removing a missing file is the identity,
matching the tolerated os.IsNotExist branch). -/
def removeBlob (blobs : List (String × Bytes)) (name : String) : List (String × Bytes) :=
  blobs.filter (fun p => ¬ p.1 = name)

/-- `SELECT ... WHERE content_hash = ? ... LIMIT 1` in primary-key order. -/
def findByHash (rows : List ClipModel) (h : String) : Option ClipModel :=
  rows.find? (fun r => r.contentHash == h)

/-- `First(&model, id)`: look a row up by primary key. -/
def findById (rows : List ClipModel) (id : Nat) : Option ClipModel :=
  rows.find? (fun r => r.id == id)

/-- GORM `Save(&model)` with a non-zero primary key: update every column of
the row with that id from the in-memory model. -/
def updateRow (rows : List ClipModel) (r : ClipModel) : List ClipModel :=
  rows.map (fun x => if x.id = r.id then r else x)

/-- SQLiteStorage.Store (internal/storage/sqlite/sqlite.go).
Size ceiling first, then hash lookup; an existing hash is a `lastUsed`
touch of the existing row; a new hash chooses placement by size, writes
the blob file for external placement, and inserts the row. -/
def store (hashFn : Bytes → String) (st : StoreState) (now : Nat)
    (content : Bytes) (clipType : String) (md : Metadata) :
    Except StorageErr (StoreState × ClipModel) :=
  let size := content.length
  if maxStorageSize < size then .error .fileTooLarge
  else
    let contentHash := hashFn content
    match findByHash st.rows contentHash with
    | some existing =>
      let updated := { existing with lastUsed := now }
      .ok ({ st with rows := updateRow st.rows updated }, updated)
    | none =>
      let base : ClipModel :=
        { id := st.nextId
          createdAt := now
          contentHash := contentHash
          content := []
          storagePath := ""
          isExternal := false
          size := size
          type := clipType
          sourceApp := md.sourceApp
          category := md.category
          tags := md.tags
          lastUsed := now
          syncedToObsidian := false }
      if maxInlineStorageSize < size then
        let model := { base with storagePath := contentHash, isExternal := true }
        .ok ({ st with
                rows := st.rows ++ [model]
                blobs := writeBlob st.blobs contentHash content
                nextId := st.nextId + 1 }, model)
      else
        let model := { base with content := content }
        .ok ({ st with rows := st.rows ++ [model], nextId := st.nextId + 1 }, model)

/-- SQLiteStorage.Get (internal/storage/sqlite/sqlite.go).
Loads the row, hydrates `Content` from the blob file for an external row,
stamps `LastUsed`, and then calls GORM `Save(&model)` — which persists
every field of the hydrated in-memory model back to the row. -/
def get (st : StoreState) (now : Nat) (id : Nat) :
    Except StorageErr (StoreState × Clip) :=
  match findById st.rows id with
  | none => .error .notFound
  | some model =>
    if model.isExternal then
      match lookupBlob st.blobs model.storagePath with
      | none => .error .readFailed
      | some content =>
        let saved := { model with content := content, lastUsed := now }
        .ok ({ st with rows := updateRow st.rows saved }, saved.toClip)
    else
      let saved := { model with lastUsed := now }
      .ok ({ st with rows := updateRow st.rows saved }, saved.toClip)

/-- SQLiteStorage.Delete (internal/storage/sqlite/sqlite.go).
Loads the row (NotFound when absent), removes the blob file first when
external (a missing file is tolerated), then removes the row. -/
def delete (st : StoreState) (id : Nat) : Except StorageErr StoreState :=
  match findById st.rows id with
  | none => .error .notFound
  | some model =>
    let blobs := if model.isExternal then removeBlob st.blobs model.storagePath else st.blobs
    .ok { st with rows := st.rows.filter (fun r => ¬ r.id = id), blobs := blobs }

/-- `ORDER BY last_used DESC`: `a` precedes `b` when its `lastUsed` is not
smaller (the embedding's deterministic, stable realisation of the SQL
ordering; ties keep primary-key order). -/
def luDesc (a b : ClipModel) : Prop := b.lastUsed ≤ a.lastUsed

instance : DecidableRel luDesc := fun a b => Nat.decLe b.lastUsed a.lastUsed

instance : IsTotal ClipModel luDesc :=
  ⟨fun a b => Nat.le_total b.lastUsed a.lastUsed⟩

instance : IsTrans ClipModel luDesc :=
  ⟨fun _ _ _ hab hbc => Nat.le_trans hbc hab⟩

/-- `ORDER BY last_used ASC`. -/
def luAsc (a b : ClipModel) : Prop := a.lastUsed ≤ b.lastUsed

instance : DecidableRel luAsc := fun a b => Nat.decLe a.lastUsed b.lastUsed

instance : IsTotal ClipModel luAsc := ⟨fun a b => Nat.le_total a.lastUsed b.lastUsed⟩

instance : IsTrans ClipModel luAsc := ⟨fun _ _ _ hab hbc => Nat.le_trans hab hbc⟩

/-- `ORDER BY created_at DESC`. -/
def caDesc (a b : ClipModel) : Prop := b.createdAt ≤ a.createdAt

instance : DecidableRel caDesc := fun a b => Nat.decLe b.createdAt a.createdAt

instance : IsTotal ClipModel caDesc :=
  ⟨fun a b => Nat.le_total b.createdAt a.createdAt⟩

instance : IsTrans ClipModel caDesc :=
  ⟨fun _ _ _ hab hbc => Nat.le_trans hbc hab⟩

/-- `ORDER BY created_at ASC`. -/
def caAsc (a b : ClipModel) : Prop := a.createdAt ≤ b.createdAt

instance : DecidableRel caAsc := fun a b => Nat.decLe a.createdAt b.createdAt

instance : IsTotal ClipModel caAsc := ⟨fun a b => Nat.le_total a.createdAt b.createdAt⟩

instance : IsTrans ClipModel caAsc := ⟨fun _ _ _ hab hbc => Nat.le_trans hab hbc⟩

/-- The rows in `last_used` descending order. -/
def sortLastUsedDesc (rows : List ClipModel) : List ClipModel :=
  rows.insertionSort luDesc

/-- The rows in `created_at` descending order. -/
def sortCreatedAtDesc (rows : List ClipModel) : List ClipModel :=
  rows.insertionSort caDesc

/-- internal/storage.ListFilter. -/
structure ListFilter where
  type : String
  category : String
  tags : List String
  limit : Int
  offset : Int
deriving DecidableEq

/-- Hydration of one listed row: an external row reads its blob file
(`os.ReadFile` fails when the file is missing), an inline row is returned
as stored. -/
def hydrate (blobs : List (String × Bytes)) (m : ClipModel) :
    Except StorageErr ClipModel :=
  if m.isExternal then
    match lookupBlob blobs m.storagePath with
    | none => .error .readFailed
    | some c => .ok { m with content := c }
  else .ok m

/-- The hydration loop of List/ListUnsynced: convert each row to a Clip,
aborting on the first missing blob, exactly as the Go loop returns on the
first ReadFile error. -/
def hydrateList (blobs : List (String × Bytes)) : List ClipModel → Except StorageErr (List Clip)
  | [] => .ok []
  | m :: ms =>
    match hydrate blobs m with
    | .error e => .error e
    | .ok m' =>
      match hydrateList blobs ms with
      | .error e => .error e
      | .ok cs => .ok (m'.toClip :: cs)

/-- The total hydrated view of a row, used to state what the hydration
loop produces when every blob is present. -/
def hydrateClip (blobs : List (String × Bytes)) (m : ClipModel) : Clip :=
  (if m.isExternal then
    match lookupBlob blobs m.storagePath with
    | some c => { m with content := c }
    | none => m
   else m).toClip

/-- Every external row of the state has its blob file present. -/
def blobsOk (st : StoreState) : Bool :=
  st.rows.all (fun r => !r.isExternal || (lookupBlob st.blobs r.storagePath).isSome)

/-- SQLiteStorage.List (internal/storage/sqlite/sqlite.go).
Optional exact-match type/category filters; a non-empty tag filter issues
`tags @> ?`, which SQLite cannot parse (`@>` is PostgreSQL syntax), so the
query fails; `LIMIT`/`OFFSET` are applied only when positive, after the
`last_used DESC` ordering; every listed external row is hydrated from its
blob file. -/
def list (st : StoreState) (filter : ListFilter) :
    Except StorageErr (StoreState × List Clip) :=
  if filter.tags ≠ [] then .error .badQuery
  else
    let selected := st.rows.filter (fun r =>
      (filter.type == "" || r.type == filter.type) &&
      (filter.category == "" || r.category == filter.category))
    let sorted := sortLastUsedDesc selected
    let paged := if 0 < filter.offset then sorted.drop filter.offset.toNat else sorted
    let limited := if 0 < filter.limit then paged.take filter.limit.toNat else paged
    match hydrateList st.blobs limited with
    | .error e => .error e
    | .ok clips => .ok (st, clips)

/-- SQLiteStorage.ListUnsynced (internal/storage/sqlite/sqlite.go).
`WHERE synced_to_obsidian = false ORDER BY created_at DESC`, `LIMIT` only
when positive; a pure scan — no row is saved, so no stored field changes. -/
def listUnsynced (st : StoreState) (limit : Int) :
    Except StorageErr (StoreState × List Clip) :=
  let selected := st.rows.filter (fun r => !r.syncedToObsidian)
  let sorted := sortCreatedAtDesc selected
  let limited := if 0 < limit then sorted.take limit.toNat else sorted
  match hydrateList st.blobs limited with
  | .error e => .error e
  | .ok clips => .ok (st, clips)

/-- SQL `LIKE` pattern matching over characters, fuelled so that the
recursion is structural (every step consumes pattern or subject, so
`pattern.length + subject.length + 1` fuel always suffices): `%` matches
any sequence, `_` matches one character, anything else matches itself. -/
def likeFuel : Nat → List Char → List Char → Bool
  | 0, _, _ => false
  | _ + 1, [], [] => true
  | _ + 1, [], _ :: _ => false
  | fuel + 1, '%' :: ps, s =>
    likeFuel fuel ps s ||
      (match s with
       | [] => false
       | _ :: t => likeFuel fuel ('%' :: ps) t)
  | fuel + 1, '_' :: ps, s =>
    (match s with
     | [] => false
     | _ :: t => likeFuel fuel ps t)
  | fuel + 1, p :: ps, s =>
    (match s with
     | [] => false
     | c :: t => p == c && likeFuel fuel ps t)

/-- SQL `LIKE` over characters. -/
def likeCore (pat s : List Char) : Bool :=
  likeFuel (pat.length + s.length + 1) pat s

/-- SQLite `LIKE` (case-insensitive for letters, as SQLite's default
collation is for ASCII; `Char.toLower` also stands in for the SQL `LOWER`
the Go code wraps around both operands). -/
def sqlLike (pat s : List Char) : Bool :=
  likeCore (pat.map Char.toLower) (s.map Char.toLower)

/-- The `'%' + term + '%'` pattern the Go code builds around a search term. -/
def likePat (term : List Char) : List Char := '%' :: (term ++ ['%'])

/-- Does `hay` start with `sub`? (helper for the substring test). -/
def leadMatch : List Char → List Char → Bool
  | _, [] => true
  | [], _ :: _ => false
  | c :: t, p :: ps => c == p && leadMatch t ps

/-- strings.Contains: does `sub` occur contiguously in `hay`? -/
def subMatch (hay sub : List Char) : Bool :=
  leadMatch hay sub ||
    (match hay with
     | [] => false
     | _ :: t => subMatch t sub)

/-- One hex digit, lower-case, for JSON control-character escapes. -/
def hexDigit (n : Nat) : Char :=
  if n < 10 then Char.ofNat (48 + n) else Char.ofNat (87 + n)

/-- encoding/json escaping of one character inside a JSON string (Go's
default encoder also escapes `<`, `>` and `&` as HTML-safe sequences). -/
def jsonEscapeChar (c : Char) : List Char :=
  if c = '"' then ['\\', '"']
  else if c = '\\' then ['\\', '\\']
  else if c = '<' then ['\\', 'u', '0', '0', '3', 'c']
  else if c = '>' then ['\\', 'u', '0', '0', '3', 'e']
  else if c = '&' then ['\\', 'u', '0', '0', '2', '6']
  else if c = '\n' then ['\\', 'n']
  else if c = '\r' then ['\\', 'r']
  else if c = '\t' then ['\\', 't']
  else if c.toNat < 32 then
    ['\\', 'u', '0', '0', hexDigit (c.toNat / 16), hexDigit (c.toNat % 16)]
  else [c]

/-- encoding/json rendering of one string. -/
def jsonString (s : String) : List Char :=
  '"' :: (s.data.map jsonEscapeChar).flatten ++ ['"']

/-- encoding/json rendering of a string array. -/
def jsonStringArray (tags : List String) : List Char :=
  '[' :: List.intercalate [','] (tags.map jsonString) ++ [']']

/-- The persisted `tags` column: StringArray.Value marshals the slice to
JSON text, and a nil slice is stored as SQL NULL (an empty tag set is
modelled as the nil slice, the value Go callers pass when no tags are
given).  `LIKE` against NULL never matches. -/
def tagsColumn (tags : List String) : Option (List Char) :=
  if tags = [] then none else some (jsonStringArray tags)

/-- `type LIKE 'text%'`. -/
def typeIsText (ty : String) : Bool :=
  sqlLike "text%".data ty.data

/-- internal/storage.SearchOptions (time bounds as optional instants,
mirroring the `IsZero` checks on `time.Time`). -/
structure SearchOptions where
  query : String
  type : String
  sourceApp : String
  category : String
  tags : List String
  fromTime : Option Nat
  toTime : Option Nat
  limit : Int
  offset : Int
  sortBy : String
  sortOrder : String
deriving DecidableEq

/-- loadExternalContent (internal/storage/sqlite/search.go): only an
external row with a non-empty storage path can be read. -/
def loadExternalContent (blobs : List (String × Bytes)) (m : ClipModel) : Option Bytes :=
  if m.isExternal && m.storagePath ≠ "" then lookupBlob blobs m.storagePath else none

/-- The free-text condition SQLiteStorage.Search builds for a non-empty
query `term` (already lower-cased by strings.ToLower): the SQL
disjunction over inline content (text rows only), content hash (text rows
only), source_app, category and the serialized tags column, OR-ed with
`id = ?` for every external text row whose blob contains the term. -/
def searchMatchQuery (blobs : List (String × Bytes)) (term : List Char) (r : ClipModel) : Bool :=
  let pat := likePat term
  (typeIsText r.type &&
     ((!r.isExternal && sqlLike pat r.content) || sqlLike pat r.contentHash.data))
  || sqlLike pat r.sourceApp.data
  || sqlLike pat r.category.data
  || (match tagsColumn r.tags with
      | some tc => sqlLike pat tc
      | none => false)
  || (typeIsText r.type && r.isExternal &&
      (match loadExternalContent blobs r with
       | some c => subMatch (c.map Char.toLower) term
       | none => false))

/-- The exact-match and range filters SQLiteStorage.Search AND-s onto the
query condition (the tag filter is `tags LIKE '%tag%'` per tag). -/
def searchFilters (opts : SearchOptions) (r : ClipModel) : Bool :=
  (opts.type == "" || r.type == opts.type)
  && (opts.sourceApp == "" || r.sourceApp == opts.sourceApp)
  && (opts.category == "" || r.category == opts.category)
  && opts.tags.all (fun t =>
       match tagsColumn r.tags with
       | some tc => sqlLike (likePat t.data) tc
       | none => false)
  && (match opts.fromTime with
      | some f => decide (f ≤ r.createdAt)
      | none => true)
  && (match opts.toTime with
      | some t => decide (r.createdAt ≤ t)
      | none => true)

/-- The ORDER BY clause SQLiteStorage.Search emits: explicit created_at or
last_used with a direction, `last_used DESC` by default, and no ordering
at all for an unrecognised sort key. -/
def searchSort (opts : SearchOptions) (rows : List ClipModel) : List ClipModel :=
  if opts.sortBy ≠ "" then
    let asc := opts.sortOrder.toLower == "asc"
    if opts.sortBy == "created_at" then
      (if asc then rows.insertionSort caAsc else rows.insertionSort caDesc)
    else if opts.sortBy == "last_used" then
      (if asc then rows.insertionSort luAsc else rows.insertionSort luDesc)
    else rows
  else rows.insertionSort luDesc

/-- A search hit: the hydrated clip plus the row's `lastUsed` (the float
relevance score is monotone in `lastUsed` and is not modelled separately). -/
structure SearchResult where
  clip : Clip
  lastUsed : Nat
deriving DecidableEq

/-- Search-side hydration: a read failure on the blob is ignored and the
clip keeps the row's stored content. -/
def hydrateLoose (blobs : List (String × Bytes)) (m : ClipModel) : Clip :=
  let clip := m.toClip
  if m.isExternal then
    match loadExternalContent blobs m with
    | some c => { clip with content := c }
    | none => clip
  else clip

/-- SQLiteStorage.Search (internal/storage/sqlite/search.go). -/
def search (st : StoreState) (opts : SearchOptions) : List SearchResult :=
  let queried :=
    if opts.query ≠ "" then
      let term := opts.query.data.map Char.toLower
      st.rows.filter (fun r => searchMatchQuery st.blobs term r)
    else st.rows
  let filtered := queried.filter (searchFilters opts)
  let sorted := searchSort opts filtered
  let paged := if 0 < opts.offset then sorted.drop opts.offset.toNat else sorted
  let limited := if 0 < opts.limit then paged.take opts.limit.toNat else paged
  limited.map (fun m => { clip := hydrateLoose st.blobs m, lastUsed := m.lastUsed })

/-- SearchOptions carrying only a free-text query. -/
def queryOnly (q : String) : SearchOptions :=
  { query := q, type := "", sourceApp := "", category := "", tags := []
    fromTime := none, toTime := none, limit := 0, offset := 0
    sortBy := "", sortOrder := "" }

/-- Modelled from the spec: the matching rule of §4.2 as the specification
words it — the query occurs case-insensitively as a substring of (a) the
content of a text-typed record (read from the blob for an external one),
(b) the content hash, (c) sourceApp, (d) category, or (e) any tag.  Stated
only to be compared with the code's `searchMatchQuery`. -/
def specSearchMatch (blobs : List (String × Bytes)) (q : String) (r : ClipModel) : Bool :=
  let term := q.data.map Char.toLower
  let inStr := fun (s : List Char) => subMatch (s.map Char.toLower) term
  (typeIsText r.type &&
     (if r.isExternal then
        (match lookupBlob blobs r.storagePath with
         | some c => inStr c
         | none => false)
      else inStr r.content))
  || inStr r.contentHash.data
  || inStr r.sourceApp.data
  || inStr r.category.data
  || r.tags.any (fun t => inStr t.data)

/-- Result of ClipboardService.GetClipByIndex: a clip, a typed error, or a
Go runtime panic from an out-of-range slice index. -/
inductive IndexResult where
  | ok (c : Clip)
  | err (e : StorageErr)
  | panicked
deriving DecidableEq

/-- ClipboardService.GetClipByIndex (internal/service/handler.go): asks
List for `limit = index+1`, answers NotFound when fewer clips come back,
and otherwise evaluates `clips[index]` — which panics for a negative
index. -/
def getClipByIndex (st : StoreState) (index : Int) : IndexResult :=
  match list st { type := "", category := "", tags := [], limit := index + 1, offset := 0 } with
  | .error e => .err e
  | .ok (_, clips) =>
    if (clips.length : Int) ≤ index then .err .notFound
    else if 0 ≤ index then
      match clips[index.toNat]? with
      | some c => .ok c
      | none => .panicked
    else .panicked

/-- ClipboardService.handleClipboardChange (internal/service/handler.go):
empty content is silently dropped, ErrFileTooLarge is logged and
swallowed, any other store error propagates; otherwise the new state is
returned. -/
def handleClipboardChange (hashFn : Bytes → String) (st : StoreState) (now : Nat)
    (clip : Clip) : Except StorageErr StoreState :=
  if clip.content.length == 0 then .ok st
  else
    match store hashFn st now clip.content clip.type clip.metadata with
    | .error .fileTooLarge => .ok st
    | .error e => .error e
    | .ok (st', _) => .ok st'

/-- The per-event flow of ClipboardService.Start: run
handleClipboardChange; on error only log; otherwise notify every
registered handler, in registration order, with the incoming clip.
Handlers are identified by opaque tokens; the second component lists the
handlers that were invoked, in invocation order. -/
def onClipboardEvent (hashFn : Bytes → String) (handlers : List Nat) (st : StoreState)
    (now : Nat) (clip : Clip) : StoreState × List Nat :=
  match handleClipboardChange hashFn st now clip with
  | .error _ => (st, [])
  | .ok st' => (st', handlers)

/-! ### Concrete fixtures used by the witness theorems -/

/-- A concrete stand-in digest for witnesses: the payload itself, rendered
as a string (any function of the bytes works for the claims below). -/
def hashId : Bytes → String := fun b => String.mk b

/-- A constant digest, used where the digest value is irrelevant. -/
def hashConst : Bytes → String := fun _ => "h"

def mdW : Metadata := { sourceApp := "app", tags := [], category := "cat" }

/-- The row that storing the one-byte payload `['a']` at instant 0 creates. -/
def rowW : ClipModel :=
  { id := 1, createdAt := 0, contentHash := "a", content := ['a']
    storagePath := "", isExternal := false, size := 1, type := "text"
    sourceApp := "app", category := "cat", tags := [], lastUsed := 0
    syncedToObsidian := false }

/-- The state after that first store. -/
def stW : StoreState := { rows := [rowW], blobs := [], nextId := 2 }

/-- An inline-threshold-plus-one payload (10 MiB + 1 bytes). -/
def bigPayload : Bytes := List.replicate (10 * 1024 * 1024 + 1) 'a'

/-- A hard-ceiling-plus-one payload (100 MiB + 1 bytes). -/
def hugePayload : Bytes := List.replicate (100 * 1024 * 1024 + 1) 'a'

/-- An external text row whose blob file holds "unique token inside". -/
def rowExt : ClipModel :=
  { id := 7, createdAt := 3, contentHash := "hh", content := []
    storagePath := "hh", isExternal := true, size := 19, type := "text"
    sourceApp := "", category := "", tags := [], lastUsed := 4
    syncedToObsidian := false }

def stExt : StoreState :=
  { rows := [rowExt], blobs := [("hh", "unique token inside".data)], nextId := 8 }

/-- Three inline records: A most recently used, then B, then C. -/
def rowTriA : ClipModel :=
  { id := 1, createdAt := 1, contentHash := "a", content := ['a']
    storagePath := "", isExternal := false, size := 1, type := "text"
    sourceApp := "", category := "", tags := [], lastUsed := 30
    syncedToObsidian := false }

def rowTriB : ClipModel :=
  { rowTriA with id := 2, createdAt := 2, contentHash := "b", content := ['b'], lastUsed := 20 }

def rowTriC : ClipModel :=
  { rowTriA with id := 3, createdAt := 3, contentHash := "c", content := ['c'], lastUsed := 10 }

def stTri : StoreState := { rows := [rowTriC, rowTriA, rowTriB], blobs := [], nextId := 4 }

/-- A non-text (image) record whose content hash contains "dead". -/
def rowHash : ClipModel :=
  { id := 1, createdAt := 0, contentHash := "deadbeef", content := []
    storagePath := "", isExternal := false, size := 0, type := "image/png"
    sourceApp := "pix", category := "img", tags := [], lastUsed := 0
    syncedToObsidian := false }

def stHash : StoreState := { rows := [rowHash], blobs := [], nextId := 2 }

/-- A clipboard event that carries no content. -/
def clipEmptyW : Clip :=
  { id := "", content := [], type := "text", metadata := mdW, createdAt := 0 }

/-- The same record as `rowHash` but text-typed, so the hash branch of the
search condition applies to it. -/
def rowTxt : ClipModel := { rowHash with type := "text" }

def stTxt : StoreState := { rows := [rowTxt], blobs := [], nextId := 2 }

/-! ### Helper lemmas -/

theorem lookupBlob_writeBlob (blobs : List (String × Bytes)) (name : String) (c : Bytes) :
    lookupBlob (writeBlob blobs name c) name = some c := by
  simp [lookupBlob, writeBlob, List.find?]

theorem lookupBlob_removeBlob (blobs : List (String × Bytes)) (name : String) :
    lookupBlob (removeBlob blobs name) name = none := by
  have h : List.find? (fun p => p.1 == name) (removeBlob blobs name) = none := by
    rw [List.find?_eq_none]
    intro p hp
    rcases List.mem_filter.mp hp with ⟨-, hne⟩
    simpa using hne
  simp [lookupBlob, h]

/-! ### C4 — ceiling rejection -/

/-- C4.  A payload whose size exceeds the hard ceiling (100 MiB) is
rejected with ErrFileTooLarge before any write: the result is the error
for every digest function and every starting state (so the hash is never
consulted and nothing — row or blob — depends on or changes the state),
and no record or state is produced. -/
theorem store_ceiling_rejection (content : Bytes)
    (h : maxStorageSize < content.length) :
    ∀ (hashFn : Bytes → String) (st : StoreState) (now : Nat) (ty : String) (md : Metadata),
      store hashFn st now content ty md = .error .fileTooLarge := by
  intro hashFn st now ty md
  unfold store
  simp [h]

/-- Witness for C4 at a concrete 100 MiB + 1 payload. -/
theorem store_ceiling_rejection_witness :
    store hashConst StoreState.empty 0 hugePayload "file" mdW = .error .fileTooLarge :=
  store_ceiling_rejection hugePayload
    (by rw [hugePayload, List.length_replicate]; norm_num [maxStorageSize])
    hashConst StoreState.empty 0 "file" mdW

/-! ### C3 — placement threshold -/

/-- C3.  For a newly stored payload (its hash not yet present) within the
ceiling, placement is by size: `isExternal` is true exactly when the size
exceeds the 10 MiB inline threshold; at or below the threshold the row is
inline and no blob is written; above it, `storagePath` equals the content
hash and a blob file of that name holding the payload exists. -/
theorem store_placement_threshold (hashFn : Bytes → String) (st : StoreState) (now : Nat)
    (content : Bytes) (ty : String) (md : Metadata)
    (hsz : content.length ≤ maxStorageSize)
    (hnew : findByHash st.rows (hashFn content) = none) :
    ∃ st' r, store hashFn st now content ty md = .ok (st', r)
      ∧ (r.isExternal = true ↔ maxInlineStorageSize < content.length)
      ∧ r.size = content.length
      ∧ r.contentHash = hashFn content
      ∧ (maxInlineStorageSize < content.length →
          r.storagePath = r.contentHash ∧ r.content = [] ∧
          lookupBlob st'.blobs (hashFn content) = some content)
      ∧ (content.length ≤ maxInlineStorageSize →
          r.isExternal = false ∧ r.content = content ∧ st'.blobs = st.blobs) := by
  unfold store
  rw [if_neg (by omega)]
  simp only [hnew]
  by_cases hth : maxInlineStorageSize < content.length
  · rw [if_pos hth]
    refine ⟨_, _, rfl, ?_, rfl, rfl, fun _ => ⟨rfl, rfl, ?_⟩, fun hle => absurd hth (by omega)⟩
    · simpa using hth
    · exact lookupBlob_writeBlob st.blobs (hashFn content) content
  · rw [if_neg hth]
    refine ⟨_, _, rfl, ?_, rfl, rfl, fun hgt => absurd hgt hth, fun _ => ⟨rfl, rfl, rfl⟩⟩
    simpa using hth

/-- Witness for C3 at a concrete 10 MiB + 1 payload over the empty store:
the record is external, its storage path is the content hash, and the blob
file exists. -/
theorem store_placement_threshold_witness :
    ∃ st' r, store hashConst StoreState.empty 0 bigPayload "file" mdW = .ok (st', r)
      ∧ (r.isExternal = true ↔ maxInlineStorageSize < bigPayload.length)
      ∧ r.size = bigPayload.length
      ∧ r.contentHash = hashConst bigPayload
      ∧ (maxInlineStorageSize < bigPayload.length →
          r.storagePath = r.contentHash ∧ r.content = [] ∧
          lookupBlob st'.blobs (hashConst bigPayload) = some bigPayload)
      ∧ (bigPayload.length ≤ maxInlineStorageSize →
          r.isExternal = false ∧ r.content = bigPayload ∧ st'.blobs = StoreState.empty.blobs) :=
  store_placement_threshold hashConst StoreState.empty 0 bigPayload "file" mdW
    (by rw [bigPayload, List.length_replicate]; norm_num [maxStorageSize])
    (by rfl)

/-! ### C5 — delete contract -/

theorem findById_filter_ne (rows : List ClipModel) (id : Nat) :
    findById (rows.filter (fun r => ¬ r.id = id)) id = none := by
  rw [findById, List.find?_eq_none]
  intro r hr
  rcases List.mem_filter.mp hr with ⟨-, hne⟩
  simpa using hne

/-- C5.  Delete of a missing id fails with NotFound; delete of an existing
record succeeds (whether or not the blob file is present), removing the
blob file first when the record is external (and touching no blob when
inline), then the row — after which a get of that id fails with NotFound. -/
theorem delete_contract (st : StoreState) (id : Nat) (now : Nat) :
    (findById st.rows id = none → delete st id = .error .notFound)
    ∧ (∀ r, findById st.rows id = some r →
        ∃ st', delete st id = .ok st'
          ∧ (r.isExternal = true → lookupBlob st'.blobs r.storagePath = none)
          ∧ (r.isExternal = false → st'.blobs = st.blobs)
          ∧ findById st'.rows id = none
          ∧ get st' now id = .error .notFound) := by
  constructor
  · intro h
    unfold delete
    rw [h]
  · intro r h
    unfold delete
    rw [h]
    refine ⟨_, rfl, ?_, ?_, findById_filter_ne st.rows id, ?_⟩
    · intro hext
      simp only [hext, if_pos]
      exact lookupBlob_removeBlob st.blobs r.storagePath
    · intro hnext
      simp [hnext]
    · unfold get
      rw [findById_filter_ne st.rows id]

/-- Witness for C5: deleting the concrete external record removes its blob
and makes a subsequent get fail with NotFound. -/
theorem delete_contract_witness :
    ∃ st', delete stExt 7 = .ok st'
      ∧ (rowExt.isExternal = true → lookupBlob st'.blobs rowExt.storagePath = none)
      ∧ (rowExt.isExternal = false → st'.blobs = stExt.blobs)
      ∧ findById st'.rows 7 = none
      ∧ get st' 9 7 = .error .notFound :=
  (delete_contract stExt 7 9).2 rowExt (by decide)

/-! ### C2 — external rows and the persisted content column -/

theorem findById_updateRow : ∀ (rows : List ClipModel) (id : Nat) (r0 r' : ClipModel),
    (rows.map (fun r => r.id)).Nodup →
    findById rows id = some r0 → r'.id = r0.id →
    findById (updateRow rows r') id = some r'
  | [], id, r0, r', _, hfind, _ => by simp [findById] at hfind
  | x :: xs, id, r0, r', hids, hfind, hid => by
    rw [List.map_cons, List.nodup_cons] at hids
    obtain ⟨hx, hxs⟩ := hids
    have hr0id : r0.id = id := by simpa using List.find?_some hfind
    by_cases hcase : x.id = id
    · have hx0 : r0 = x := by
        rw [findById, List.find?_cons_of_pos _ (by simpa using hcase)] at hfind
        exact (Option.some.inj hfind).symm
      rw [updateRow, List.map_cons, if_pos (by rw [hid, hx0])]
      rw [findById, List.find?_cons_of_pos _ (by simp [hid, hr0id])]
    · have hfind' : findById xs id = some r0 := by
        rw [findById, List.find?_cons_of_neg _ (by simpa using hcase)] at hfind
        exact hfind
      have hxne : ¬ x.id = r'.id := by
        intro heq
        have hr0mem : r0 ∈ xs := List.mem_of_find?_eq_some hfind'
        have hmem : r0.id ∈ xs.map (fun r => r.id) := List.mem_map_of_mem _ hr0mem
        rw [heq, hid] at hx
        exact hx hmem
      rw [updateRow, List.map_cons, if_neg hxne]
      rw [findById, List.find?_cons_of_neg _ (by simpa using hcase)]
      exact findById_updateRow xs id r0 r' hxs hfind' hid

theorem findByHash_updateRow : ∀ (rows : List ClipModel) (h : String) (r0 r' : ClipModel),
    (rows.map (fun r => r.id)).Nodup →
    findByHash rows h = some r0 → r'.id = r0.id → r'.contentHash = r0.contentHash →
    findByHash (updateRow rows r') h = some r'
  | [], h, r0, r', _, hfind, _, _ => by simp [findByHash] at hfind
  | x :: xs, h, r0, r', hids, hfind, hid, hhash => by
    rw [List.map_cons, List.nodup_cons] at hids
    obtain ⟨hx, hxs⟩ := hids
    have hr0h : r0.contentHash = h := by simpa using List.find?_some hfind
    by_cases hcase : x.contentHash = h
    · have hx0 : r0 = x := by
        rw [findByHash, List.find?_cons_of_pos _ (by simpa using hcase)] at hfind
        exact (Option.some.inj hfind).symm
      rw [updateRow, List.map_cons, if_pos (by rw [hid, hx0])]
      rw [findByHash, List.find?_cons_of_pos _ (by simp [hhash, hr0h])]
    · have hfind' : findByHash xs h = some r0 := by
        rw [findByHash, List.find?_cons_of_neg _ (by simpa using hcase)] at hfind
        exact hfind
      have hxne : ¬ x.id = r'.id := by
        intro heq
        have hr0mem : r0 ∈ xs := List.mem_of_find?_eq_some hfind'
        have hmem : r0.id ∈ xs.map (fun r => r.id) := List.mem_map_of_mem _ hr0mem
        rw [heq, hid] at hx
        exact hx hmem
      rw [updateRow, List.map_cons, if_neg hxne]
      rw [findByHash, List.find?_cons_of_neg _ (by simpa using hcase)]
      exact findByHash_updateRow xs h r0 r' hxs hfind' hid hhash

/-- C2 (code bug).  Get of an external record hydrates the in-memory model
from the blob file and returns the hydrated clip — but the GORM `Save`
issued to refresh `lastUsed` persists the whole hydrated model, so
afterwards the row's content column holds the payload bytes inline,
violating "the persisted row never carries inline bytes for external
records". -/
theorem get_external_persists_content (st : StoreState) (id : Nat) (now : Nat)
    (r : ClipModel) (b : Bytes)
    (hids : (st.rows.map (fun x => x.id)).Nodup)
    (hfind : findById st.rows id = some r) (hext : r.isExternal = true)
    (hblob : lookupBlob st.blobs r.storagePath = some b) :
    ∃ st' c, get st now id = .ok (st', c)
      ∧ c.content = b
      ∧ findById st'.rows id = some { r with content := b, lastUsed := now } := by
  unfold get
  rw [hfind]
  simp only [hext, if_pos, hblob]
  exact ⟨_, _, rfl, rfl, findById_updateRow st.rows id r _ hids hfind rfl⟩

/-- Witness for C2's code bug: after getting the concrete external record,
the persisted row's content column holds the 19-byte payload. -/
theorem get_external_persists_content_witness :
    ∃ st' c, get stExt 9 7 = .ok (st', c)
      ∧ c.content = "unique token inside".data
      ∧ findById st'.rows 7 =
          some { rowExt with content := "unique token inside".data, lastUsed := 9 } :=
  get_external_persists_content stExt 7 9 rowExt "unique token inside".data
    (by decide) (by decide) (by decide) (by decide)

/-! ### C1 — dedup idempotence -/

theorem updateRow_length (rows : List ClipModel) (r : ClipModel) :
    (updateRow rows r).length = rows.length := by
  simp [updateRow]

theorem findByHash_append_self (rows : List ClipModel) (h : String) (m : ClipModel)
    (hnone : findByHash rows h = none) (hm : m.contentHash = h) :
    findByHash (rows ++ [m]) h = some m := by
  rw [findByHash] at hnone ⊢
  rw [List.find?_append, hnone]
  simp [hm]

/-- C1.  Storing the same bytes twice (with any types/metadata and a later
or equal clock) succeeds both times with the same row: same id, same
content hash, and the second call creates no new record and writes no
blob — it only refreshes `lastUsed` (to the second instant, hence `≥` the
first call's) and returns the existing record with the first call's
content, type, metadata and createdAt. -/
theorem store_dedup_idempotent (hashFn : Bytes → String) (st : StoreState)
    (t1 t2 : Nat) (content : Bytes) (ty1 ty2 : String) (md1 md2 : Metadata)
    (st1 : StoreState) (r1 : ClipModel)
    (hids : (st.rows.map (fun r => r.id)).Nodup)
    (hle : t1 ≤ t2)
    (hok : store hashFn st t1 content ty1 md1 = .ok (st1, r1)) :
    ∃ st2 r2, store hashFn st1 t2 content ty2 md2 = .ok (st2, r2)
      ∧ r2.id = r1.id ∧ r2.contentHash = r1.contentHash
      ∧ r2.content = r1.content ∧ r2.type = r1.type
      ∧ r2.sourceApp = r1.sourceApp ∧ r2.category = r1.category ∧ r2.tags = r1.tags
      ∧ r2.createdAt = r1.createdAt
      ∧ r1.lastUsed ≤ r2.lastUsed ∧ r2.lastUsed = t2
      ∧ st2.rows.length = st1.rows.length
      ∧ st2.blobs = st1.blobs := by
  by_cases hszc : maxStorageSize < content.length
  · rw [store, if_pos hszc] at hok
    exact absurd hok (by simp)
  · simp only [store, if_neg hszc] at hok
    have hall : ∀ (stx : StoreState) (rx : ClipModel),
        findByHash stx.rows (hashFn content) = some rx → rx.lastUsed = t1 →
        ∃ st2 r2, store hashFn stx t2 content ty2 md2 = .ok (st2, r2)
          ∧ r2.id = rx.id ∧ r2.contentHash = rx.contentHash
          ∧ r2.content = rx.content ∧ r2.type = rx.type
          ∧ r2.sourceApp = rx.sourceApp ∧ r2.category = rx.category ∧ r2.tags = rx.tags
          ∧ r2.createdAt = rx.createdAt
          ∧ rx.lastUsed ≤ r2.lastUsed ∧ r2.lastUsed = t2
          ∧ st2.rows.length = stx.rows.length
          ∧ st2.blobs = stx.blobs := by
      intro stx rx hfindx hlu
      have heq : store hashFn stx t2 content ty2 md2 =
          .ok ({ stx with rows := updateRow stx.rows { rx with lastUsed := t2 } },
            { rx with lastUsed := t2 }) := by
        simp only [store, if_neg hszc, hfindx]
      exact ⟨_, _, heq, rfl, rfl, rfl, rfl, rfl, rfl, rfl, rfl,
        (by rw [hlu]; exact hle), rfl, updateRow_length _ _, rfl⟩
    cases hfind : findByHash st.rows (hashFn content) with
    | some existing =>
      rw [hfind] at hok
      rw [Except.ok.injEq, Prod.mk.injEq] at hok
      obtain ⟨hst1, hr1⟩ := hok
      subst hst1
      subst hr1
      exact hall _ _
        (findByHash_updateRow st.rows (hashFn content) existing
          { existing with lastUsed := t1 } hids hfind rfl rfl) rfl
    | none =>
      rw [hfind] at hok
      by_cases hth : maxInlineStorageSize < content.length
      · rw [if_pos hth] at hok
        rw [Except.ok.injEq, Prod.mk.injEq] at hok
        obtain ⟨hst1, hr1⟩ := hok
        subst hst1
        subst hr1
        exact hall _ _ (findByHash_append_self st.rows (hashFn content) _ hfind rfl) rfl
      · rw [if_neg hth] at hok
        rw [Except.ok.injEq, Prod.mk.injEq] at hok
        obtain ⟨hst1, hr1⟩ := hok
        subst hst1
        subst hr1
        exact hall _ _ (findByHash_append_self st.rows (hashFn content) _ hfind rfl) rfl

/-- Witness for C1: storing `['a']` on the empty store at instant 0 and
again at instant 5 returns the same record with `lastUsed` refreshed. -/
theorem store_dedup_idempotent_witness :
    ∃ st2 r2, store hashId stW 5 ['a'] "other" mdW = .ok (st2, r2)
      ∧ r2.id = rowW.id ∧ r2.contentHash = rowW.contentHash
      ∧ r2.content = rowW.content ∧ r2.type = rowW.type
      ∧ r2.sourceApp = rowW.sourceApp ∧ r2.category = rowW.category ∧ r2.tags = rowW.tags
      ∧ r2.createdAt = rowW.createdAt
      ∧ rowW.lastUsed ≤ r2.lastUsed ∧ r2.lastUsed = 5
      ∧ st2.rows.length = stW.rows.length
      ∧ st2.blobs = stW.blobs :=
  store_dedup_idempotent hashId StoreState.empty 0 5 ['a'] "text" "other" mdW mdW
    stW rowW (by decide) (by decide) (by decide)

/-! ### C8 — handler notification -/

/-- Counterexample to C8 as stated: a clipboard change that is dropped as
empty still notifies the registered handler — `handleClipboardChange`
returns success for the empty payload, and the event loop notifies on
every non-error outcome. -/
theorem handlers_notified_counterexample :
    clipEmptyW.content = []
    ∧ onClipboardEvent hashId [7] stTri 0 clipEmptyW = (stTri, [7]) := by
  constructor
  · rfl
  · decide

/-- C8 as amended.  Registered handlers are notified, all of them in
registration order, whenever the handling of a change completes without
error — after a durable store or dedup, but also when the change is
dropped as empty and when it is skipped as too large; only an error from
the store suppresses notification. -/
theorem handlers_notified_amended (hashFn : Bytes → String) (handlers : List Nat)
    (st : StoreState) (now : Nat) (clip : Clip) :
    (clip.content = [] → onClipboardEvent hashFn handlers st now clip = (st, handlers))
    ∧ (maxStorageSize < clip.content.length →
        onClipboardEvent hashFn handlers st now clip = (st, handlers))
    ∧ (∀ st' r, clip.content ≠ [] →
        store hashFn st now clip.content clip.type clip.metadata = .ok (st', r) →
        onClipboardEvent hashFn handlers st now clip = (st', handlers)) := by
  refine ⟨?_, ?_, ?_⟩
  · intro h
    simp [onClipboardEvent, handleClipboardChange, h]
  · intro h
    have hne : ¬ (clip.content.length == 0) = true := by
      simp only [beq_iff_eq]
      omega
    have hstore : store hashFn st now clip.content clip.type clip.metadata =
        .error .fileTooLarge := by
      rw [store, if_pos h]
    rw [onClipboardEvent, handleClipboardChange, if_neg hne, hstore]
  · intro st' r hne hok
    have hlen : ¬ (clip.content.length == 0) = true := by
      simp only [beq_iff_eq, List.length_eq_zero]
      exact hne
    rw [onClipboardEvent, handleClipboardChange, if_neg hlen, hok]

/-- Witness for C8's amended claim at a too-large concrete clip: the
change is skipped, yet the handler is notified. -/
theorem handlers_notified_amended_witness :
    onClipboardEvent hashConst [7] stTri 0
        { id := "", content := hugePayload, type := "file", metadata := mdW, createdAt := 0 }
      = (stTri, [7]) :=
  (handlers_notified_amended hashConst [7] stTri 0
      { id := "", content := hugePayload, type := "file", metadata := mdW, createdAt := 0 }).2.1
    (by rw [hugePayload, List.length_replicate]; norm_num [maxStorageSize])

/-! ### C9 — listUnsynced -/

theorem hydrateList_ok (blobs : List (String × Bytes)) (l : List ClipModel)
    (h : ∀ m ∈ l, m.isExternal = true → (lookupBlob blobs m.storagePath).isSome) :
    hydrateList blobs l = .ok (l.map (hydrateClip blobs)) := by
  induction l with
  | nil => rfl
  | cons m ms ih =>
    have hms : ∀ x ∈ ms, x.isExternal = true → (lookupBlob blobs x.storagePath).isSome :=
      fun x hx => h x (List.mem_cons_of_mem _ hx)
    cases hext : m.isExternal with
    | false =>
      rw [hydrateList]
      simp only [hydrate, hext, Bool.false_eq_true, if_false, ih hms]
      simp [hydrateClip, hext]
    | true =>
      obtain ⟨c, hc⟩ := Option.isSome_iff_exists.mp (h m (List.mem_cons_self m ms) hext)
      rw [hydrateList]
      simp only [hydrate, hext, if_true, hc, ih hms]
      simp [hydrateClip, hext, hc]

theorem hydrateClip_createdAt (blobs : List (String × Bytes)) (m : ClipModel) :
    (hydrateClip blobs m).createdAt = m.createdAt := by
  cases hext : m.isExternal with
  | false => simp [hydrateClip, hext, ClipModel.toClip]
  | true =>
    cases hlk : lookupBlob blobs m.storagePath with
    | none => simp [hydrateClip, hext, hlk, ClipModel.toClip]
    | some c => simp [hydrateClip, hext, hlk, ClipModel.toClip]

theorem blobsOk_mem (st : StoreState) (hwf : blobsOk st = true) :
    ∀ m ∈ st.rows, m.isExternal = true → (lookupBlob st.blobs m.storagePath).isSome := by
  intro m hm hext
  have := (List.all_eq_true.mp hwf) m hm
  simpa [hext] using this

/-- Counterexample to C9 as stated: with `limit = 0` (the claim quantifies
over every limit) the scan is unbounded — a store holding one unsynced
record returns it, so the result is not "at most limit" records. -/
theorem listUnsynced_limit_counterexample :
    ∃ cs, listUnsynced stW 0 = .ok (stW, cs) ∧ ¬ (cs.length ≤ 0) :=
  ⟨[rowW.toClip], by decide, by decide⟩

/-- C9 as amended.  For every limit, listUnsynced succeeds without
touching the state (so no stored field — in particular no `lastUsed` — is
mutated), returns only records with `syncedToObsidian = false` ordered by
`createdAt` descending; a positive limit bounds the result by `limit`,
while a non-positive limit returns every unsynced record. -/
theorem listUnsynced_amended (st : StoreState) (limit : Int)
    (hwf : blobsOk st = true) :
    ∃ clips, listUnsynced st limit = .ok (st, clips)
      ∧ (∀ c ∈ clips, ∃ r ∈ st.rows, r.syncedToObsidian = false ∧ c = hydrateClip st.blobs r)
      ∧ clips.Pairwise (fun a b => b.createdAt ≤ a.createdAt)
      ∧ (0 < limit → (clips.length : Int) ≤ limit)
      ∧ (limit ≤ 0 →
          clips.length = (st.rows.filter (fun r => !r.syncedToObsidian)).length) := by
  have hmemsel : ∀ m ∈ (if 0 < limit then
        (sortCreatedAtDesc (st.rows.filter (fun r => !r.syncedToObsidian))).take limit.toNat
      else sortCreatedAtDesc (st.rows.filter (fun r => !r.syncedToObsidian))), m ∈ st.rows := by
    intro m hm
    have hsorted : m ∈ sortCreatedAtDesc (st.rows.filter (fun r => !r.syncedToObsidian)) := by
      by_cases hl : 0 < limit
      · rw [if_pos hl] at hm
        exact (List.take_sublist _ _).mem hm
      · rwa [if_neg hl] at hm
    rw [sortCreatedAtDesc, List.mem_insertionSort] at hsorted
    exact (List.mem_filter.mp hsorted).1
  have hhyd := hydrateList_ok st.blobs
    (if 0 < limit then
        (sortCreatedAtDesc (st.rows.filter (fun r => !r.syncedToObsidian))).take limit.toNat
      else sortCreatedAtDesc (st.rows.filter (fun r => !r.syncedToObsidian)))
    (fun m hm => blobsOk_mem st hwf m (hmemsel m hm))
  refine ⟨(if 0 < limit then
        (sortCreatedAtDesc (st.rows.filter (fun r => !r.syncedToObsidian))).take limit.toNat
      else sortCreatedAtDesc (st.rows.filter (fun r => !r.syncedToObsidian))).map
        (hydrateClip st.blobs), ?_, ?_, ?_, ?_, ?_⟩
  · simp only [listUnsynced]
    rw [hhyd]
  · intro c hc
    obtain ⟨m, hm, hmc⟩ := List.mem_map.mp hc
    have hmrows := hmemsel m hm
    have hsorted : m ∈ sortCreatedAtDesc (st.rows.filter (fun r => !r.syncedToObsidian)) := by
      by_cases hl : 0 < limit
      · rw [if_pos hl] at hm
        exact (List.take_sublist _ _).mem hm
      · rwa [if_neg hl] at hm
    rw [sortCreatedAtDesc, List.mem_insertionSort] at hsorted
    have hunsync := (List.mem_filter.mp hsorted).2
    exact ⟨m, hmrows, by simpa using hunsync, hmc.symm⟩
  · have hsorted : (sortCreatedAtDesc (st.rows.filter (fun r => !r.syncedToObsidian))).Pairwise caDesc := by
      rw [sortCreatedAtDesc]
      exact List.sorted_insertionSort caDesc _
    have hpart : (if 0 < limit then
          (sortCreatedAtDesc (st.rows.filter (fun r => !r.syncedToObsidian))).take limit.toNat
        else sortCreatedAtDesc (st.rows.filter (fun r => !r.syncedToObsidian))).Pairwise caDesc := by
      by_cases hl : 0 < limit
      · rw [if_pos hl]
        exact List.Pairwise.sublist (List.take_sublist _ _) hsorted
      · rwa [if_neg hl]
    rw [List.pairwise_map]
    refine hpart.imp ?_
    intro a b hab
    rw [hydrateClip_createdAt, hydrateClip_createdAt]
    exact hab
  · intro hl
    rw [List.length_map, if_pos hl]
    have h1 : ((sortCreatedAtDesc (st.rows.filter (fun r => !r.syncedToObsidian))).take
        limit.toNat).length ≤ limit.toNat := List.length_take_le _ _
    omega
  · intro hl
    rw [List.length_map, if_neg (by omega)]
    rw [sortCreatedAtDesc, List.length_insertionSort]

/-- Witness for C9's amended claim at limit 1 over the three-record store. -/
theorem listUnsynced_amended_witness :
    ∃ clips, listUnsynced stTri 1 = .ok (stTri, clips)
      ∧ (∀ c ∈ clips, ∃ r ∈ stTri.rows, r.syncedToObsidian = false ∧ c = hydrateClip stTri.blobs r)
      ∧ clips.Pairwise (fun a b => b.createdAt ≤ a.createdAt)
      ∧ (0 < (1 : Int) → (clips.length : Int) ≤ 1)
      ∧ ((1 : Int) ≤ 0 →
          clips.length = (stTri.rows.filter (fun r => !r.syncedToObsidian)).length) :=
  listUnsynced_amended stTri 1 (by decide)

/-! ### C6 and C10 — index-based retrieval -/

theorem list_noFilter (st : StoreState) (limit : Int) (hwf : blobsOk st = true) :
    list st { type := "", category := "", tags := [], limit := limit, offset := 0 } =
      .ok (st, (if 0 < limit then (sortLastUsedDesc st.rows).take limit.toNat
                else sortLastUsedDesc st.rows).map (hydrateClip st.blobs)) := by
  have hfil : st.rows.filter (fun r =>
      (("" : String) == "" || r.type == "") && (("" : String) == "" || r.category == "")) =
        st.rows := by
    rw [List.filter_eq_self]
    intro a _
    simp
  have hmem : ∀ m ∈ (if 0 < limit then (sortLastUsedDesc st.rows).take limit.toNat
      else sortLastUsedDesc st.rows), m ∈ st.rows := by
    intro m hm
    have hs : m ∈ sortLastUsedDesc st.rows := by
      by_cases hl : 0 < limit
      · rw [if_pos hl] at hm
        exact (List.take_sublist _ _).mem hm
      · rwa [if_neg hl] at hm
    rwa [sortLastUsedDesc, List.mem_insertionSort] at hs
  have hhyd := hydrateList_ok st.blobs
    (if 0 < limit then (sortLastUsedDesc st.rows).take limit.toNat
     else sortLastUsedDesc st.rows)
    (fun m hm => blobsOk_mem st hwf m (hmem m hm))
  simp only [list]
  rw [if_neg (by simp)]
  rw [hfil]
  rw [if_neg (by omega : ¬ (0 : Int) < 0)]
  by_cases hl : 0 < limit
  · rw [if_pos hl] at hhyd ⊢
    rw [hhyd]
  · rw [if_neg hl] at hhyd ⊢
    rw [hhyd]

/-- C6.  For every n ≥ 0 (as a natural number), GetClipByIndex asks List
for `limit = n + 1` and indexes the last element: it returns the n-th
record of the `lastUsed`-descending ordering of all records (n = 0 most
recent), and fails with NotFound when fewer than n + 1 records exist. -/
theorem getClipByIndex_spec (st : StoreState) (n : Nat) (hwf : blobsOk st = true) :
    getClipByIndex st (n : Int) =
      (match (sortLastUsedDesc st.rows)[n]? with
       | some m => .ok (hydrateClip st.blobs m)
       | none => .err .notFound) := by
  have hlist := list_noFilter st ((n : Int) + 1) hwf
  rw [if_pos (by omega : (0 : Int) < (n : Int) + 1)] at hlist
  have htn : ((n : Int) + 1).toNat = n + 1 := by omega
  rw [htn] at hlist
  simp only [getClipByIndex, hlist]
  by_cases hlen : (sortLastUsedDesc st.rows).length ≤ n
  · have hclips : (((sortLastUsedDesc st.rows).take (n + 1)).map
        (hydrateClip st.blobs)).length = (sortLastUsedDesc st.rows).length := by
      rw [List.length_map, List.length_take]
      omega
    rw [if_pos (by rw [hclips]; exact_mod_cast hlen)]
    rw [List.getElem?_eq_none hlen]
  · have hlt : n < (sortLastUsedDesc st.rows).length := by omega
    have hclips : (((sortLastUsedDesc st.rows).take (n + 1)).map
        (hydrateClip st.blobs)).length = n + 1 := by
      rw [List.length_map, List.length_take]
      omega
    rw [if_neg (by rw [hclips]; exact_mod_cast (by omega : ¬ n + 1 ≤ n))]
    rw [if_pos (by exact_mod_cast Nat.zero_le n : (0 : Int) ≤ (n : Int))]
    have htn2 : ((n : Int)).toNat = n := by omega
    rw [htn2]
    rw [List.getElem?_map, List.getElem?_take_of_succ, List.getElem?_eq_getElem hlt]
    rfl

/-- Witness for C6 over records [A(newest), B, C(oldest)]: index 1 returns
B, index 3 fails with NotFound. -/
theorem getClipByIndex_spec_witness :
    getClipByIndex stTri 1 = .ok rowTriB.toClip
    ∧ getClipByIndex stTri 3 = .err .notFound :=
  ⟨(getClipByIndex_spec stTri 1 (by decide)).trans (by decide),
   (getClipByIndex_spec stTri 3 (by decide)).trans (by decide)⟩

/-- C10.  For a negative index, List is called with a non-positive limit,
which it treats as "no limit", returning every record; the bounds check
`len(clips) <= index` is false, and the subsequent `clips[index]` access
is out of range — the call neither returns a clip nor a typed error but
panics. -/
theorem getClipByIndex_negative (st : StoreState) (index : Int)
    (hneg : index < 0) (hone : st.rows ≠ []) (hwf : blobsOk st = true) :
    (∃ clips, list st { type := "", category := "", tags := [], limit := index + 1, offset := 0 }
        = .ok (st, clips) ∧ clips.length = st.rows.length ∧ 0 < clips.length)
    ∧ getClipByIndex st index = .panicked := by
  have hlist := list_noFilter st (index + 1) hwf
  rw [if_neg (by omega : ¬ (0 : Int) < index + 1)] at hlist
  constructor
  · refine ⟨_, hlist, ?_, ?_⟩
    · rw [List.length_map, sortLastUsedDesc, List.length_insertionSort]
    · rw [List.length_map, sortLastUsedDesc, List.length_insertionSort]
      exact List.length_pos.mpr hone
  · simp only [getClipByIndex, hlist]
    rw [if_neg (by omega :
      ¬ (((sortLastUsedDesc st.rows).map (hydrateClip st.blobs)).length : Int) ≤ index)]
    rw [if_neg (by omega : ¬ (0 : Int) ≤ index)]

/-- Witness for C10 at index -1 over the three-record store. -/
theorem getClipByIndex_negative_witness :
    (∃ clips, list stTri { type := "", category := "", tags := [], limit := (-1) + 1, offset := 0 }
        = .ok (stTri, clips) ∧ clips.length = stTri.rows.length ∧ 0 < clips.length)
    ∧ getClipByIndex stTri (-1) = .panicked :=
  getClipByIndex_negative stTri (-1) (by decide) (by decide) (by decide)

/-! ### C7 — search matching rule -/

/-- Counterexample to C7 as stated: a non-text record whose content hash
contains the query matches the specification's rule (clause (b) is not
restricted to text records), yet the code's SQL gates hash matching behind
`type LIKE 'text%'`, so search returns nothing. -/
theorem search_hash_gated_counterexample :
    rowHash ∈ stHash.rows
    ∧ specSearchMatch stHash.blobs "dead" rowHash = true
    ∧ search stHash (queryOnly "dead") = [] :=
  ⟨by decide, by decide, by decide⟩

/-- C7 as amended.  For a non-empty query (and no other filters), a stored
record is included in the search result exactly when it satisfies the
code's condition `searchMatchQuery`: the lowercased query occurs (as a SQL
LIKE substring) in the inline content or the content hash of a
**text-typed** record, in sourceApp, in category, or in the JSON
serialization of the tags column; or the record is an external text
record whose blob content contains the lowercased query. -/
theorem search_match_amended (st : StoreState) (q : String) (hq : q ≠ "") :
    (∀ r ∈ st.rows, searchMatchQuery st.blobs (q.data.map Char.toLower) r = true →
      ∃ res ∈ search st (queryOnly q),
        res.clip = hydrateLoose st.blobs r ∧ res.lastUsed = r.lastUsed)
    ∧ (∀ res ∈ search st (queryOnly q),
      ∃ r ∈ st.rows, searchMatchQuery st.blobs (q.data.map Char.toLower) r = true
        ∧ res.clip = hydrateLoose st.blobs r ∧ res.lastUsed = r.lastUsed) := by
  have hfil2 : ∀ (l : List ClipModel), l.filter (searchFilters
      { query := q, type := "", sourceApp := "", category := "", tags := [], fromTime := none,
        toTime := none, limit := 0, offset := 0, sortBy := "", sortOrder := "" }) = l := by
    intro l
    rw [List.filter_eq_self]
    intro a _
    simp [searchFilters]
  have hsearch : search st (queryOnly q) =
      ((st.rows.filter (fun r =>
          searchMatchQuery st.blobs (q.data.map Char.toLower) r)).insertionSort luDesc).map
        (fun m => { clip := hydrateLoose st.blobs m, lastUsed := m.lastUsed }) := by
    have h00 : ¬ (0 : Int) < 0 := by omega
    have hne : ¬ ("" : String) ≠ "" := by simp
    simp only [search, queryOnly, searchSort]
    rw [if_pos hq]
    rw [hfil2]
    simp only [if_neg h00, if_neg hne]
  constructor
  · intro r hr hmatch
    refine ⟨{ clip := hydrateLoose st.blobs r, lastUsed := r.lastUsed }, ?_, rfl, rfl⟩
    rw [hsearch]
    apply List.mem_map_of_mem
    rw [List.mem_insertionSort, List.mem_filter]
    exact ⟨hr, hmatch⟩
  · intro res hres
    rw [hsearch] at hres
    obtain ⟨m, hm, hres⟩ := List.mem_map.mp hres
    rw [List.mem_insertionSort, List.mem_filter] at hm
    exact ⟨m, hm.1, hm.2, by rw [← hres], by rw [← hres]⟩

/-- Witness for C7's amended claim: the text-typed record whose hash
contains "dead" is found by searching "dead". -/
theorem search_match_amended_witness :
    ∃ res ∈ search stTxt (queryOnly "dead"),
      res.clip = hydrateLoose stTxt.blobs rowTxt ∧ res.lastUsed = rowTxt.lastUsed :=
  (search_match_amended stTxt "dead" (by decide)).1 rowTxt (by decide) (by decide)

end ClipboardManager
